import Mathlib

/-!
Verification development for the OnliveV2 WebSocket transport/session layer.

Embedded source:
* `src/client.rb` — Ruby WebSocket client: frame encoder (`send_frame`),
  frame decoder (`receive_frame`), opening handshake (`handshake`).
* `src/src/websocket/logic/server.ts` — TypeScript `Server` class:
  authentication gate, session registry (`clients` map), per-connection
  close cleanup, `broadcast`, `handleMessage`/`handleEvent` dispatch.

Bytes are modelled as `Nat` (meaningful values `< 256`), byte strings as
`List Nat`, connections as `Nat` socket identifiers.
-/

set_option linter.unusedVariables false

namespace Onlive

/-! ### Frame codec (src/client.rb, `send_frame` / `receive_frame`) -/

/-- XOR-masking of a byte list with a 4-byte key, starting at position `i`:
Ruby `data.bytes.each_with_index.map { |byte, i| byte ^ mask_key[i % 4] }`. -/
def maskFrom (key : List Nat) : Nat → List Nat → List Nat
  | _, [] => []
  | i, b :: rest => (b ^^^ key.getD (i % 4) 0) :: maskFrom key (i + 1) rest

/-- Masking from position 0 (how `send_frame` and `receive_frame` use it). -/
def maskData (key : List Nat) (data : List Nat) : List Nat :=
  maskFrom key 0 data

/-- Big-endian 16-bit byte pair: Ruby `[n].pack("n")`. -/
def be16 (n : Nat) : List Nat :=
  [n / 256 % 256, n % 256]

/-- Big-endian 32-bit byte quadruple: Ruby `[n].pack("N")` (truncates mod 2^32). -/
def be32 (n : Nat) : List Nat :=
  [n / 2 ^ 24 % 256, n / 2 ^ 16 % 256, n / 2 ^ 8 % 256, n % 256]

/-- Big-endian value of a byte list: Ruby `unpack("n")` / `unpack("Q>")`. -/
def beVal (bs : List Nat) : Nat :=
  bs.foldl (fun acc b => acc * 256 + b) 0

/-- Client-role frame encoder, translated from `send_frame` (client.rb:87-109):
byte 0 is `0x81` (FIN + Text); the length field is `0x80 | length` when
`length ≤ 125`, `0xFE` plus 2 big-endian bytes when `length ≤ 65535`, else
`0xFF` plus `[length >> 32, length & 0xFFFFFFFF].pack("NN")`; then the 4-byte
mask key (a parameter here, random in the source) and the masked payload. -/
def encodeFrame (maskKey : List Nat) (data : List Nat) : List Nat :=
  let length := data.length
  let lenBytes :=
    if length ≤ 125 then [0x80 ||| length]
    else if length ≤ 65535 then 0xFE :: be16 length
    else 0xFF :: (be32 (length >>> 32) ++ be32 (length &&& 0xFFFFFFFF))
  0x81 :: (lenBytes ++ (maskKey ++ maskData maskKey data))

/-- Modelled from the spec: the server-role frame encoder is not in the
repository sources (the server delegates framing to the external `ws`
library); spec section 4.1 prescribes the same header without the mask bit,
no mask key, and the payload sent verbatim. -/
def encodeFrameServer (data : List Nat) : List Nat :=
  let length := data.length
  let lenBytes :=
    if length ≤ 125 then [length]
    else if length ≤ 65535 then 126 :: be16 length
    else 127 :: (be32 (length / 2 ^ 32) ++ be32 (length % 2 ^ 32))
  0x81 :: (lenBytes ++ data)

/-- `@socket.read(n)`: succeed with exactly `n` bytes and the rest of the
stream, or fail when the stream is too short. -/
def readN (n : Nat) (l : List Nat) : Option (List Nat × List Nat) :=
  if n ≤ l.length then some (l.take n, l.drop n) else none

/-- A decoded frame as `receive_frame` exposes it. -/
structure Frame where
  fin : Bool
  opcode : Nat
  payload : List Nat
deriving DecidableEq, Repr

/-- The extended-length step of `receive_frame` (client.rb:120-124): a 7-bit
length of 126 reads 2 big-endian bytes (`unpack("n")`), 127 reads 8
big-endian bytes (`unpack("Q>")`), anything else is the length itself. -/
def readLenField (len0 : Nat) (rest : List Nat) : Option (Nat × List Nat) :=
  if len0 = 126 then (readN 2 rest).map (fun p => (beVal p.1, p.2))
  else if len0 = 127 then (readN 8 rest).map (fun p => (beVal p.1, p.2))
  else some (len0, rest)

/-- The mask-key step of `receive_frame` (client.rb:126): 4 key bytes iff the
mask bit was set. -/
def readMaskKey (hasMask : Bool) (rest : List Nat) : Option (Option (List Nat) × List Nat) :=
  if hasMask then (readN 4 rest).map (fun p => (some p.1, p.2))
  else some (none, rest)

/-- Frame decoder, translated from `receive_frame` (client.rb:111-134): read
one byte for FIN/opcode, one byte for mask-bit/length, the extended length
bytes per the 7-bit indicator, the 4-byte mask key if the mask bit is set,
then exactly `length` payload bytes, unmasked if needed.  Returns the frame
and the unconsumed stream; `none` models the socket reads raising. -/
def decodeFrame (stream : List Nat) : Option (Frame × List Nat) :=
  match stream with
  | b0 :: b1 :: rest1 =>
    (readLenField (b1 &&& 0x7F) rest1).bind fun lr =>
    (readMaskKey (decide (b1 &&& 0x80 ≠ 0)) lr.2).bind fun mr =>
    (readN lr.1 mr.2).map fun pr =>
      (⟨decide (b0 &&& 0x80 ≠ 0), b0 &&& 0x0F,
        match mr.1 with
        | some k => maskData k pr.1
        | none => pr.1⟩, pr.2)
  | _ => none

/-- The 7-bit length-indicator field of an encoded frame (byte 1, low 7 bits). -/
def lenIndicator (frame : List Nat) : Nat :=
  frame.getD 1 0 &&& 0x7F

/-! ### Opening handshake (src/client.rb, `handshake`) -/

/-- `pat` is a leading block of the second list (character-by-character). -/
def leadMatch : List Char → List Char → Bool
  | [], _ => true
  | _ :: _, [] => false
  | p :: ps, c :: cs => p == c && leadMatch ps cs

/-- Ruby `String#include?`: `pat` occurs contiguously somewhere in the list. -/
def strIncludes (pat : List Char) : List Char → Bool
  | [] => pat.isEmpty
  | c :: rest => leadMatch pat (c :: rest) || strIncludes pat rest

/-- The substring the client requires in the raw response (client.rb:82). -/
def pattern101 : List Char :=
  String.toList ("101 Switching Protocols")

/-- Outcome of the client handshake read/check. -/
inductive HandshakeOutcome
  | success
  /-- `raise "Handshake failed: #{response}"` — carries the raw response. -/
  | handshakeFailed (raw : String)
  /-- `readpartial` raised (EOF): no response value is attached. -/
  | readError
deriving DecidableEq, Repr

/-- Client handshake check, translated from `handshake` (client.rb:66-85):
`response = @socket.readpartial(1024)` (modelled as an `Option`: `none` when
the read raises), then success iff the WHOLE raw response includes the
substring `"101 Switching Protocols"`, else a failure carrying the raw
response. -/
def handshake (readResult : Option String) : HandshakeOutcome :=
  match readResult with
  | none => HandshakeOutcome.readError
  | some response =>
    if strIncludes pattern101 response.toList then HandshakeOutcome.success
    else HandshakeOutcome.handshakeFailed response

/-- Following the spec's words (section 4.2): the handshake "succeeds only if
the response status line contains 101".  The status line is the response up
to the first carriage return. -/
def spec101StatusLine (response : String) : Bool :=
  strIncludes (String.toList ("101")) (response.toList.takeWhile (fun c => c ≠ '\r'))

/-! ### Server model (src/src/websocket/logic/server.ts) -/

/-- WebSocket readyState values. -/
inductive CState
  | connecting
  | opened
  | closing
  | closed
deriving DecidableEq, Repr

/-- A JSON envelope written to a socket. -/
inductive WireMsg
  /-- `{event:'error', data:{error: code, message}}` (rejectConnection, line 272). -/
  | errorEnvelope (code message : String)
  /-- `{event, data}` (emit / broadcast). -/
  | eventEnvelope (event data : String)
deriving DecidableEq, Repr

/-- The connection-attempt facts the gate inspects: whether
`verify(token, SECRET_KEY)` succeeds, whether `token === process.env.TOKEN_SERVER`,
and the `player-id` header (`""` models an absent or empty header — both are
falsy in `if (!playerId)`). -/
structure AuthInput where
  verifyOk : Bool
  tokenMatches : Bool
  playerId : String
deriving DecidableEq, Repr

/-- Association-list lookup (JS `Map.prototype.get` / `has`). -/
def lookupA {α β : Type} [DecidableEq α] (k : α) : List (α × β) → Option β
  | [] => none
  | (k', v) :: rest => if k' = k then some v else lookupA k rest

/-- JS `Map.prototype.set`: replace in place when the key exists (insertion
order kept), otherwise append. -/
def setA {α β : Type} [DecidableEq α] (k : α) (v : β) : List (α × β) → List (α × β)
  | [] => [(k, v)]
  | (k', v') :: rest => if k' = k then (k, v) :: rest else (k', v') :: setA k v rest

/-- The close-event cleanup loop (server.ts:106-113): scan entries in
insertion order, delete the first whose socket equals the closing one,
then `break`. -/
def removeFirstConn (c : Nat) : List (String × Nat) → List (String × Nat)
  | [] => []
  | e :: rest => if e.2 = c then rest else e :: removeFirstConn c rest

/-- Update the recorded readyState of socket `c`. -/
def markState (c : Nat) (st : CState) : List (Nat × CState) → List (Nat × CState)
  | [] => []
  | (c', st') :: rest =>
      (if c' = c then (c', st) else (c', st')) :: markState c st rest

/-- readyState of socket `c` (sockets the model never saw count as closed). -/
def stateOf (wss : List (Nat × CState)) (c : Nat) : CState :=
  (lookupA c wss).getD CState.closed

/-- Observable server state: `wss` is the socket set tracked by the
underlying `WebSocketServer` with each socket's readyState, `registry` is
`this.clients` (insertion-ordered identity → socket map), `attached` lists
sockets that passed the gate (and so carry the registered close handler),
`sent` is the chronological log of envelopes written, tagged by socket. -/
structure SState where
  wss : List (Nat × CState)
  registry : List (String × Nat)
  attached : List Nat
  sent : List (Nat × WireMsg)
deriving DecidableEq, Repr

def initState : SState := ⟨[], [], [], []⟩

/-- The authentication gate (server.ts:55-96): `verify` throwing rejects with
`ERR_MISSING_TOKEN`; a verified token different from `TOKEN_SERVER` rejects
with `ERR_VALID_TOKEN`; then `if (!playerId || this.clients.has(playerId))`
rejects with `ERR_MISSING_PLAYER_ID` when the id is falsy, else with
`ERR_ALREADY_CONNECTED`.  Returns `some (code, message)` on rejection. -/
def authGate (a : AuthInput) (registry : List (String × Nat)) : Option (String × String) :=
  if !a.verifyOk then
    some ("ERR_MISSING_TOKEN", "Missing authentication token")
  else if !a.tokenMatches then
    some ("ERR_VALID_TOKEN", "Access denied. The token is no longer valid.")
  else if a.playerId = "" then
    some ("ERR_MISSING_PLAYER_ID", "Missing player_id in connection request")
  else if (lookupA a.playerId registry).isSome then
    some ("ERR_ALREADY_CONNECTED", "Player is already connected")
  else
    none

/-- `rejectConnection` (server.ts:271-274): send one error envelope, then
`ws.close()` (the socket leaves the Open state). -/
def rejectConnectionStep (c : Nat) (code msg : String) (s : SState) : SState :=
  { s with sent := s.sent ++ [(c, WireMsg.errorEnvelope code msg)],
           wss := markState c CState.closing s.wss }

/-- One inbound connection attempt on fresh socket `c` (server.ts:55-115):
the `ws` server starts tracking the open socket, the gate runs against the
current registry; rejection sends the error envelope and closes; acceptance
does `this.clients.set(playerId, ws)` and attaches the close handler. -/
def connectStep (a : AuthInput) (c : Nat) (s : SState) : SState :=
  let s1 : SState := { s with wss := s.wss ++ [(c, CState.opened)] }
  match authGate a s1.registry with
  | some (code, msg) => rejectConnectionStep c code msg s1
  | none =>
      { s1 with registry := setA a.playerId c s1.registry,
                attached := s1.attached ++ [c] }

/-- A socket's close event (server.ts:105-114): the socket is closed; when
the accept-path close handler was attached, the cleanup loop removes the
first registry entry bound to this socket. -/
def closeStep (c : Nat) (s : SState) : SState :=
  let s1 : SState := { s with wss := markState c CState.closed s.wss }
  if c ∈ s1.attached then { s1 with registry := removeFirstConn c s1.registry } else s1

/-- `setClientsWebsocket` (server.ts:218-220): unconditional `Map.set`. -/
def setClientsWebsocketStep (pid : String) (c : Nat) (s : SState) : SState :=
  { s with registry := setA pid c s.registry }

/-- The `broadcast` body (server.ts:148-152): `this.wss.clients.forEach`,
sending `{event, data}` to each socket whose readyState is OPEN. -/
def broadcastSend (event data : String) : List (Nat × CState) → List (Nat × WireMsg)
  | [] => []
  | (c, st) :: rest =>
      (if st = CState.opened then [(c, WireMsg.eventEnvelope event data)] else [])
        ++ broadcastSend event data rest

/-- `broadcast(event, data)` (server.ts:147-153). -/
def broadcastStep (event data : String) (s : SState) : SState :=
  { s with sent := s.sent ++ broadcastSend event data s.wss }

/-- Externally triggered events against the server. -/
inductive Ev
  | connect (a : AuthInput) (c : Nat)
  | closeEv (c : Nat)
  | setCW (pid : String) (c : Nat)
  | broadcast (event data : String)
deriving DecidableEq, Repr

def step : Ev → SState → SState
  | Ev.connect a c => connectStep a c
  | Ev.closeEv c => closeStep c
  | Ev.setCW pid c => setClientsWebsocketStep pid c
  | Ev.broadcast event data => broadcastStep event data

def run (evs : List Ev) (s : SState) : SState :=
  evs.foldl (fun s e => step e s) s

/-- No call to the public mutator `setClientsWebsocket` in the event list. -/
def noSetCW (evs : List Ev) : Bool :=
  evs.all fun e =>
    match e with
    | Ev.setCW _ _ => false
    | _ => true

/-- Every connection attempt in the list arrives on a socket the `ws` server
is not already tracking (real sockets are fresh objects per attempt). -/
def freshRun : List Ev → SState → Bool
  | [], _ => true
  | Ev.connect a c :: rest, s =>
      (lookupA c s.wss).isNone && freshRun rest (step (Ev.connect a c) s)
  | e :: rest, s => freshRun rest (step e s)

/-- The registry invariant of interest for C2: identities are pairwise
distinct, sockets are pairwise distinct, every stored socket is tracked by
the server in the Open state, and every stored socket has the accept-path
close handler attached. -/
def RegInv (s : SState) : Prop :=
  ((s.registry.map Prod.fst).Nodup)
  ∧ ((s.registry.map Prod.snd).Nodup)
  ∧ (∀ e ∈ s.registry, lookupA e.2 s.wss = some CState.opened)
  ∧ (∀ e ∈ s.registry, e.2 ∈ s.attached)
  ∧ ((s.wss.map Prod.fst).Nodup)

/-! ### Message dispatch (server.ts, `handleMessage` / `handleEvent`) -/

/-- What `JSON.parse` makes of a raw inbound message: either it throws, or it
yields an `{event, data}` envelope. -/
inductive RawMsg
  | malformed
  | envelope (event data : String)
deriving DecidableEq, Repr

/-- What an invoked handler does: complete (possibly emitting envelopes to
the sender's socket), or throw/reject with an error. -/
inductive HandlerBehavior
  | ok (replies : List WireMsg)
  | throws (err : String)
deriving Repr

/-- How one inbound message was settled by the router. -/
inductive DispatchResult
  /-- `catch` in `handleMessage` (server.ts:236-238): logged, dropped. -/
  | parseError
  /-- `console.warn` branch of `handleEvent` (server.ts:267): logged, dropped. -/
  | noHandler (event : String)
  /-- `catch` in `handleEvent` (server.ts:263-265): caught, logged. -/
  | handlerError (event : String) (err : String)
  | handled (event : String)
deriving DecidableEq, Repr

/-- Running a handler as an exception-capable computation. -/
def runHandler : HandlerBehavior → Except String (List WireMsg)
  | HandlerBehavior.ok replies => Except.ok replies
  | HandlerBehavior.throws e => Except.error e

/-- `handleEvent` (server.ts:253-269): look up the handler; absent → warn and
drop; present → invoke, catching any thrown error at this boundary. -/
def handleEvent (handlers : List (String × (String → HandlerBehavior)))
    (event data : String) (c : Nat) (s : SState) : SState × DispatchResult :=
  match lookupA event handlers with
  | none => (s, DispatchResult.noHandler event)
  | some h =>
      match runHandler (h data) with
      | Except.ok replies =>
          ({ s with sent := s.sent ++ replies.map (fun m => (c, m)) },
            DispatchResult.handled event)
      | Except.error e => (s, DispatchResult.handlerError event e)

/-- `handleMessage` (server.ts:231-239): parse inside `try`; a parse failure
is logged and the message dropped; otherwise delegate to `handleEvent`. -/
def handleMessage (handlers : List (String × (String → HandlerBehavior)))
    (m : RawMsg) (c : Nat) (s : SState) : SState × DispatchResult :=
  match m with
  | RawMsg.malformed => (s, DispatchResult.parseError)
  | RawMsg.envelope event data => handleEvent handlers event data c s

/-- Deliver a list of inbound messages on one connection, in order,
collecting each message's dispatch result. -/
def runMessages (handlers : List (String × (String → HandlerBehavior)))
    (c : Nat) : List RawMsg → SState → SState × List DispatchResult
  | [], s => (s, [])
  | m :: rest, s =>
      let p := handleMessage handlers m c s
      let q := runMessages handlers c rest p.1
      (q.1, p.2 :: q.2)

/-! ### Per-connection dispatch interleaving (server.ts:103, 231-239)

The `message` listener is `(message) => this.handleMessage(message, ws)` and
`handleMessage` calls the async `handleEvent` WITHOUT awaiting it, so the
event loop may deliver (and synchronously invoke the handler for) the next
message while an earlier handler is still pending.  The model makes handler
execution explicit: `deliver` pops the next queued message and invokes its
handler (adding an in-flight task); `complete` finishes an in-flight task.
Nothing in the code makes `deliver` wait for `inflight` to drain. -/

structure RouterState where
  pending : List Nat
  inflight : List Nat
  invoked : List Nat
  completed : List Nat
deriving DecidableEq, Repr

inductive RStep
  | deliver
  | complete (m : Nat)
deriving DecidableEq, Repr

def rstep : RStep → RouterState → Option RouterState
  | RStep.deliver, s =>
      match s.pending with
      | [] => none
      | m :: rest =>
          some { s with pending := rest,
                        inflight := s.inflight ++ [m],
                        invoked := s.invoked ++ [m] }
  | RStep.complete m, s =>
      if m ∈ s.inflight then
        some { s with inflight := s.inflight.erase m,
                      completed := s.completed ++ [m] }
      else none

def runTrace : List RStep → RouterState → Option RouterState
  | [], s => some s
  | st :: rest, s =>
      match rstep st s with
      | some s' => runTrace rest s'
      | none => none

/-! ### Helper lemmas: bit arithmetic -/

theorem lor128 {L : Nat} (h : L < 128) : 128 ||| L = 128 + L := by
  have h' : ∀ x : Fin 128, 128 ||| (x : Nat) = 128 + (x : Nat) := by decide
  exact h' ⟨L, h⟩

theorem land128_hi {L : Nat} (h : L < 128) : (128 + L) &&& 128 = 128 := by
  have h' : ∀ x : Fin 128, (128 + (x : Nat)) &&& 128 = 128 := by decide
  exact h' ⟨L, h⟩

theorem land127_hi {L : Nat} (h : L < 128) : (128 + L) &&& 127 = L := by
  have h' : ∀ x : Fin 128, (128 + (x : Nat)) &&& 127 = (x : Nat) := by decide
  exact h' ⟨L, h⟩

theorem land128_lo {L : Nat} (h : L < 128) : L &&& 128 = 0 := by
  have h' : ∀ x : Fin 128, (x : Nat) &&& 128 = 0 := by decide
  exact h' ⟨L, h⟩

theorem land127_lo {L : Nat} (h : L < 128) : L &&& 127 = L := by
  have h' : ∀ x : Fin 128, (x : Nat) &&& 127 = (x : Nat) := by decide
  exact h' ⟨L, h⟩

/-! ### Helper lemmas: masking, reads, big-endian values -/

theorem maskFrom_length (key : List Nat) (i : Nat) (l : List Nat) :
    (maskFrom key i l).length = l.length := by
  induction l generalizing i with
  | nil => rfl
  | cons b rest ih => simp [maskFrom, ih]

theorem maskFrom_maskFrom (key : List Nat) (i : Nat) (l : List Nat) :
    maskFrom key i (maskFrom key i l) = l := by
  induction l generalizing i with
  | nil => rfl
  | cons b rest ih => simp [maskFrom, ih, Nat.xor_cancel_right]

theorem maskData_length (key l : List Nat) : (maskData key l).length = l.length :=
  maskFrom_length key 0 l

theorem maskData_maskData (key l : List Nat) : maskData key (maskData key l) = l :=
  maskFrom_maskFrom key 0 l

theorem readN_append {n : Nat} {l1 : List Nat} (l2 : List Nat) (h : l1.length = n) :
    readN n (l1 ++ l2) = some (l1, l2) := by
  subst h
  simp [readN, List.take_left, List.drop_left]

theorem readN_all {n : Nat} {l : List Nat} (h : l.length = n) :
    readN n l = some (l, []) := by
  subst h
  simp [readN]

theorem beVal_foldl (a : Nat) (l : List Nat) :
    l.foldl (fun acc b => acc * 256 + b) a = a * 256 ^ l.length + beVal l := by
  induction l generalizing a with
  | nil => simp [beVal]
  | cons b rest ih =>
      simp only [List.foldl_cons, List.length_cons, beVal]
      rw [ih (a * 256 + b), ih (0 * 256 + b)]
      ring

theorem beVal_append (l1 l2 : List Nat) :
    beVal (l1 ++ l2) = beVal l1 * 256 ^ l2.length + beVal l2 := by
  simp only [beVal, List.foldl_append]
  exact beVal_foldl _ l2

theorem beVal_be16 {L : Nat} (h : L ≤ 65535) : beVal (be16 L) = L := by
  simp [beVal, be16]
  omega

theorem beVal_be32 (n : Nat) : beVal (be32 n) = n % 2 ^ 32 := by
  simp [beVal, be32]
  omega

theorem be16_length (n : Nat) : (be16 n).length = 2 := rfl

theorem be32_length (n : Nat) : (be32 n).length = 4 := rfl

theorem beVal_split {L : Nat} (h : L < 2 ^ 64) :
    beVal (be32 (L / 2 ^ 32) ++ be32 (L % 2 ^ 32)) = L := by
  rw [beVal_append, beVal_be32, beVal_be32, be32_length]
  have h4 : (256 : Nat) ^ 4 = 2 ^ 32 := by norm_num
  rw [h4]
  omega

theorem shift_and_split (L : Nat) :
    be32 (L >>> 32) ++ be32 (L &&& 0xFFFFFFFF) = be32 (L / 2 ^ 32) ++ be32 (L % 2 ^ 32) := by
  have h1 : L >>> 32 = L / 2 ^ 32 := Nat.shiftRight_eq_div_pow L 32
  have h2 : L &&& 0xFFFFFFFF = L % 2 ^ 32 := by
    have := Nat.and_pow_two_sub_one_eq_mod L 32
    norm_num at this
    exact this
  rw [h1, h2]

/-! ### Helper lemmas: encoder branches and decoder steps -/

theorem encodeFrame_short {key p : List Nat} (h : p.length ≤ 125) :
    encodeFrame key p = 0x81 :: (128 + p.length) :: (key ++ maskData key p) := by
  simp [encodeFrame, h, lor128 (show p.length < 128 by omega)]

theorem encodeFrame_mid {key p : List Nat} (h1 : 126 ≤ p.length) (h2 : p.length ≤ 65535) :
    encodeFrame key p = 0x81 :: 0xFE :: (be16 p.length ++ (key ++ maskData key p)) := by
  have hn : ¬ p.length ≤ 125 := by omega
  simp [encodeFrame, hn, h2]

theorem encodeFrame_long {key p : List Nat} (h : 65535 < p.length) :
    encodeFrame key p = 0x81 :: 0xFF ::
      ((be32 (p.length / 2 ^ 32) ++ be32 (p.length % 2 ^ 32)) ++ (key ++ maskData key p)) := by
  have h1 : ¬ p.length ≤ 125 := by omega
  have h2 : ¬ p.length ≤ 65535 := by omega
  simp [encodeFrame, h1, h2, shift_and_split]

theorem encodeFrameServer_short {p : List Nat} (h : p.length ≤ 125) :
    encodeFrameServer p = 0x81 :: p.length :: p := by
  simp [encodeFrameServer, h]

theorem encodeFrameServer_mid {p : List Nat} (h1 : 126 ≤ p.length) (h2 : p.length ≤ 65535) :
    encodeFrameServer p = 0x81 :: 126 :: (be16 p.length ++ p) := by
  have hn : ¬ p.length ≤ 125 := by omega
  simp [encodeFrameServer, hn, h2]

theorem encodeFrameServer_long {p : List Nat} (h : 65535 < p.length) :
    encodeFrameServer p = 0x81 :: 127 ::
      ((be32 (p.length / 2 ^ 32) ++ be32 (p.length % 2 ^ 32)) ++ p) := by
  have h1 : ¬ p.length ≤ 125 := by omega
  have h2 : ¬ p.length ≤ 65535 := by omega
  simp [encodeFrameServer, h1, h2]

theorem readLenField_small {L : Nat} (rest : List Nat) (h : L ≤ 125) :
    readLenField L rest = some (L, rest) := by
  have h1 : ¬ L = 126 := by omega
  have h2 : ¬ L = 127 := by omega
  simp [readLenField, h1, h2]

theorem readLenField_ext16 {L : Nat} (rest : List Nat) (h : L ≤ 65535) :
    readLenField 126 (be16 L ++ rest) = some (L, rest) := by
  simp [readLenField, readN_append rest (be16_length L), beVal_be16 h]

theorem readLenField_ext64 {L : Nat} (rest : List Nat) (h : L < 2 ^ 64) :
    readLenField 127 ((be32 (L / 2 ^ 32) ++ be32 (L % 2 ^ 32)) ++ rest) = some (L, rest) := by
  have hlen : (be32 (L / 2 ^ 32) ++ be32 (L % 2 ^ 32)).length = 8 := by
    simp [be32]
  rw [readLenField, if_neg (by omega), if_pos rfl, readN_append rest hlen,
    Option.map_some', beVal_split h]

theorem readMaskKey_yes {key : List Nat} (rest : List Nat) (h : key.length = 4) :
    readMaskKey true (key ++ rest) = some (some key, rest) := by
  simp [readMaskKey, readN_append rest h]

theorem readMaskKey_no (rest : List Nat) : readMaskKey false rest = some (none, rest) := rfl

/-- Round trip for the client-role encoder, any length branch. -/
theorem decode_encode_client {key p : List Nat} (hk : key.length = 4)
    (hlen : p.length < 2 ^ 64) :
    decodeFrame (encodeFrame key p) = some (⟨true, 1, p⟩, []) := by
  have hml : (maskData key p).length = p.length := maskData_length key p
  have fin129 : decide ((129 : Nat) &&& 128 ≠ 0) = true := by decide
  have op129 : (129 : Nat) &&& 15 = 1 := by decide
  have mk128 : decide ((128 : Nat) ≠ 0) = true := by decide
  rcases le_or_lt p.length 125 with h125 | hgt
  · have e1 : (128 + p.length) &&& 127 = p.length := land127_hi (by omega)
    have e2 : (128 + p.length) &&& 128 = 128 := land128_hi (by omega)
    rw [encodeFrame_short h125]
    simp only [decodeFrame, e1, e2, fin129, op129, mk128]
    rw [readLenField_small _ h125]
    simp only [Option.some_bind]
    rw [readMaskKey_yes _ hk]
    simp only [Option.some_bind]
    rw [readN_all hml]
    simp [maskData_maskData]
  · rcases le_or_lt p.length 65535 with h65 | h65
    · have e1 : (254 : Nat) &&& 127 = 126 := by decide
      have e2 : decide ((254 : Nat) &&& 128 ≠ 0) = true := by decide
      rw [encodeFrame_mid hgt h65]
      simp only [decodeFrame, e1, e2, fin129, op129]
      rw [readLenField_ext16 _ h65]
      simp only [Option.some_bind]
      rw [readMaskKey_yes _ hk]
      simp only [Option.some_bind]
      rw [readN_all hml]
      simp [maskData_maskData]
    · have e1 : (255 : Nat) &&& 127 = 127 := by decide
      have e2 : decide ((255 : Nat) &&& 128 ≠ 0) = true := by decide
      rw [encodeFrame_long h65]
      simp only [decodeFrame, e1, e2, fin129, op129]
      rw [readLenField_ext64 _ hlen]
      simp only [Option.some_bind]
      rw [readMaskKey_yes _ hk]
      simp only [Option.some_bind]
      rw [readN_all hml]
      simp [maskData_maskData]

/-- Round trip for the spec-modelled server-role encoder, any length branch. -/
theorem decode_encode_server {p : List Nat} (hlen : p.length < 2 ^ 64) :
    decodeFrame (encodeFrameServer p) = some (⟨true, 1, p⟩, []) := by
  have fin129 : decide ((129 : Nat) &&& 128 ≠ 0) = true := by decide
  have op129 : (129 : Nat) &&& 15 = 1 := by decide
  rcases le_or_lt p.length 125 with h125 | hgt
  · have e1 : p.length &&& 127 = p.length := land127_lo (by omega)
    have e2 : decide (p.length &&& 128 ≠ 0) = false := by
      rw [land128_lo (show p.length < 128 by omega)]
      decide
    rw [encodeFrameServer_short h125]
    simp only [decodeFrame, e1, e2, fin129, op129]
    rw [readLenField_small _ h125]
    simp only [Option.some_bind, readMaskKey_no]
    rw [readN_all rfl]
    simp
  · rcases le_or_lt p.length 65535 with h65 | h65
    · have e1 : (126 : Nat) &&& 127 = 126 := by decide
      have e2 : decide ((126 : Nat) &&& 128 ≠ 0) = false := by decide
      rw [encodeFrameServer_mid hgt h65]
      simp only [decodeFrame, e1, e2, fin129, op129]
      rw [readLenField_ext16 _ h65]
      simp only [Option.some_bind, readMaskKey_no]
      rw [readN_all rfl]
      simp
    · have e1 : (127 : Nat) &&& 127 = 127 := by decide
      have e2 : decide ((127 : Nat) &&& 128 ≠ 0) = false := by decide
      rw [encodeFrameServer_long h65]
      simp only [decodeFrame, e1, e2, fin129, op129]
      rw [readLenField_ext64 _ hlen]
      simp only [Option.some_bind, readMaskKey_no]
      rw [readN_all rfl]
      simp

/-! ### Claim C4: encode/decode round trip -/

/-- C4: for every byte sequence `p` (and realizable length) and both roles,
decoding the encoded Text frame returns exactly payload `p`, with opcode
Text (1) and `fin = true`, consuming the whole frame.  The client role is
`send_frame`/`receive_frame` from client.rb (mask key abstracted as a
parameter, random in the source); the server role encoder is modelled from
the spec (no mask), since the repository delegates it to the `ws` library. -/
theorem spec_c4_roundtrip (key p : List Nat) (hk : key.length = 4)
    (hkb : ∀ b ∈ key, b < 256) (hpb : ∀ b ∈ p, b < 256)
    (hlen : p.length < 2 ^ 64) :
    decodeFrame (encodeFrame key p) = some (⟨true, 1, p⟩, [])
    ∧ decodeFrame (encodeFrameServer p) = some (⟨true, 1, p⟩, []) :=
  ⟨decode_encode_client hk hlen, decode_encode_server hlen⟩

/-- Witness for C4 at a concrete key and payload. -/
theorem spec_c4_roundtrip_witness :
    decodeFrame (encodeFrame [1, 2, 3, 4] [5, 6, 7]) = some (⟨true, 1, [5, 6, 7]⟩, [])
    ∧ decodeFrame (encodeFrameServer [5, 6, 7]) = some (⟨true, 1, [5, 6, 7]⟩, []) :=
  spec_c4_roundtrip [1, 2, 3, 4] [5, 6, 7] (by decide) (by decide) (by decide) (by decide)

/-! ### Claim C5: shortest length-form selection -/

/-- C5: the encoder uses the 1-byte length form (total frame
`2 header + 4 key + L`) iff `L ≤ 125`, the 2-byte big-endian extended form
with indicator 126 iff `126 ≤ L ≤ 65535`, and the 8-byte big-endian extended
form with indicator 127 iff `L > 65535` — read off the emitted frame via its
7-bit length-indicator field and its total size. -/
theorem spec_c5_length_form (key p : List Nat) (hk : key.length = 4) :
    (p.length ≤ 125 ↔
      lenIndicator (encodeFrame key p) = p.length
      ∧ (encodeFrame key p).length = 6 + p.length)
    ∧ (126 ≤ p.length ∧ p.length ≤ 65535 ↔
      lenIndicator (encodeFrame key p) = 126
      ∧ (encodeFrame key p).length = 8 + p.length)
    ∧ (65535 < p.length ↔
      lenIndicator (encodeFrame key p) = 127
      ∧ (encodeFrame key p).length = 14 + p.length) := by
  rcases le_or_lt p.length 125 with h125 | hgt
  · have hind : lenIndicator (encodeFrame key p) = p.length := by
      rw [encodeFrame_short h125]
      simp only [lenIndicator, List.getD_cons_succ, List.getD_cons_zero]
      exact land127_hi (by omega)
    have hlen : (encodeFrame key p).length = 6 + p.length := by
      rw [encodeFrame_short h125]
      simp [maskData_length, hk]
      omega
    rw [hind, hlen]
    omega
  · rcases le_or_lt p.length 65535 with h65 | h65
    · have hind : lenIndicator (encodeFrame key p) = 126 := by
        rw [encodeFrame_mid hgt h65]
        simp only [lenIndicator, List.getD_cons_succ, List.getD_cons_zero]
        decide
      have hlen : (encodeFrame key p).length = 8 + p.length := by
        rw [encodeFrame_mid hgt h65]
        simp [maskData_length, hk, be16]
        omega
      rw [hind, hlen]
      omega
    · have hind : lenIndicator (encodeFrame key p) = 127 := by
        rw [encodeFrame_long h65]
        simp only [lenIndicator, List.getD_cons_succ, List.getD_cons_zero]
        decide
      have hlen : (encodeFrame key p).length = 14 + p.length := by
        rw [encodeFrame_long h65]
        simp [maskData_length, hk, be32]
        omega
      rw [hind, hlen]
      omega

/-- Witness for C5 at a concrete key and payload (short branch). -/
theorem spec_c5_length_form_witness :
    lenIndicator (encodeFrame [1, 2, 3, 4] [5, 6, 7]) = [5, 6, 7].length
    ∧ (encodeFrame [1, 2, 3, 4] [5, 6, 7]).length = 6 + [5, 6, 7].length :=
  (spec_c5_length_form [1, 2, 3, 4] [5, 6, 7] (by decide)).1.mp (by decide)

/-! ### Claim C6: handshake success condition (corrected) -/

/-- C6 counterexample: the claim ties success to the spec's 101 condition
("the response status line contains 101", section 4.2).  The raw response
`"HTTP/1.1 101 OK\r\n\r\n"` satisfies that condition, yet the code
(client.rb:82) demands the full substring `"101 Switching Protocols"`
anywhere in the raw response and therefore raises, so the claimed
equivalence is false at this input. -/
theorem spec_c6_counterexample :
    spec101StatusLine ("HTTP/1.1 101 OK\r\n\r\n") = true
    ∧ handshake (some ("HTTP/1.1 101 OK\r\n\r\n"))
        = HandshakeOutcome.handshakeFailed ("HTTP/1.1 101 OK\r\n\r\n") := by
  constructor
  · decide
  · decide

/-- C6 amended: the handshake succeeds iff the successfully read raw
response contains the substring `"101 Switching Protocols"` anywhere (not
merely `101` in the status line); any other successfully read response
fails carrying that raw response; a failed read fails without a response
value.  No frames are exchanged by `handshake` itself either way. -/
theorem spec_c6_amended (r : String) :
    (handshake (some r) = HandshakeOutcome.success ↔ strIncludes pattern101 r.toList = true)
    ∧ (strIncludes pattern101 r.toList = false →
        handshake (some r) = HandshakeOutcome.handshakeFailed r)
    ∧ handshake none = HandshakeOutcome.readError := by
  cases hc : strIncludes pattern101 r.toList <;>
    simp only [String.toList] at hc <;> simp [handshake, hc]

/-- Witness for C6 amended: the spec's own scenario response fails. -/
theorem spec_c6_amended_witness :
    handshake (some ("HTTP/1.1 200 OK\r\n\r\n"))
      = HandshakeOutcome.handshakeFailed ("HTTP/1.1 200 OK\r\n\r\n") :=
  (spec_c6_amended ("HTTP/1.1 200 OK\r\n\r\n")).2.1 (by decide)

/-! ### Claim C1: authentication gate order and rejection codes -/

/-- C1: the gate checks, in order, (a) credential valid (`verify` succeeds
AND the token equals the expected server token), (b) identity present
(non-falsy `player-id`), (c) identity not already registered; it rejects
with `ERR_MISSING_TOKEN`/`ERR_VALID_TOKEN` exactly when (a) fails, with
`ERR_MISSING_PLAYER_ID` exactly when (a) passes and (b) fails, with
`ERR_ALREADY_CONNECTED` exactly when (a) and (b) pass and (c) fails, and
accepts exactly when all pass. -/
theorem spec_c1_auth_gate (a : AuthInput) (reg : List (String × Nat)) :
    ((authGate a reg = some ("ERR_MISSING_TOKEN", "Missing authentication token")
        ∨ authGate a reg = some ("ERR_VALID_TOKEN", "Access denied. The token is no longer valid."))
      ↔ ¬(a.verifyOk = true ∧ a.tokenMatches = true))
    ∧ (authGate a reg = some ("ERR_MISSING_PLAYER_ID", "Missing player_id in connection request")
      ↔ (a.verifyOk = true ∧ a.tokenMatches = true) ∧ a.playerId = "")
    ∧ (authGate a reg = some ("ERR_ALREADY_CONNECTED", "Player is already connected")
      ↔ (a.verifyOk = true ∧ a.tokenMatches = true) ∧ a.playerId ≠ ""
        ∧ (lookupA a.playerId reg).isSome = true)
    ∧ (authGate a reg = none
      ↔ (a.verifyOk = true ∧ a.tokenMatches = true) ∧ a.playerId ≠ ""
        ∧ (lookupA a.playerId reg).isSome = false) := by
  obtain ⟨vo, tm, pid⟩ := a
  cases vo <;> cases tm <;>
    by_cases hp : pid = "" <;>
      cases hl : (lookupA pid reg).isSome <;>
        simp_all [authGate]

/-! ### Helper lemmas: association lists, markState, removeFirstConn -/

theorem lookupA_append_of_none {α β : Type} [DecidableEq α] {k : α}
    {l1 : List (α × β)} (l2 : List (α × β)) (h : lookupA k l1 = none) :
    lookupA k (l1 ++ l2) = lookupA k l2 := by
  induction l1 with
  | nil => rfl
  | cons e rest ih =>
      obtain ⟨k1, v1⟩ := e
      by_cases he : k1 = k
      · simp [lookupA, he] at h
      · simp only [lookupA, List.cons_append, if_neg he] at h ⊢
        exact ih h

theorem lookupA_append_of_some {α β : Type} [DecidableEq α] {k : α} {v : β}
    {l1 : List (α × β)} (l2 : List (α × β)) (h : lookupA k l1 = some v) :
    lookupA k (l1 ++ l2) = some v := by
  induction l1 with
  | nil => simp [lookupA] at h
  | cons e rest ih =>
      obtain ⟨k1, v1⟩ := e
      by_cases he : k1 = k
      · simp_all [lookupA, he]
      · simp only [lookupA, List.cons_append, if_neg he] at h ⊢
        exact ih h

theorem lookupA_eq_none_iff {α β : Type} [DecidableEq α] {k : α} {l : List (α × β)} :
    lookupA k l = none ↔ k ∉ l.map Prod.fst := by
  induction l with
  | nil => simp [lookupA]
  | cons e rest ih =>
      obtain ⟨k1, v1⟩ := e
      by_cases he : k1 = k
      · subst he
        simp [lookupA]
      · simp only [lookupA, if_neg he, List.map_cons, List.mem_cons, ih]
        constructor
        · intro hnot
          rintro (rfl | hmem)
          · exact he rfl
          · exact hnot hmem
        · intro hnot hmem
          exact hnot (Or.inr hmem)

theorem markState_map_fst (c : Nat) (st : CState) (wss : List (Nat × CState)) :
    (markState c st wss).map Prod.fst = wss.map Prod.fst := by
  induction wss with
  | nil => rfl
  | cons e rest ih =>
      obtain ⟨k1, v1⟩ := e
      by_cases he : k1 = c <;> simp [markState, he, ih]

theorem lookupA_markState_ne {c c' : Nat} (st : CState) (wss : List (Nat × CState))
    (h : c' ≠ c) : lookupA c' (markState c st wss) = lookupA c' wss := by
  induction wss with
  | nil => rfl
  | cons e rest ih =>
      obtain ⟨k1, v1⟩ := e
      simp only [markState]
      by_cases he : k1 = c
      · rw [if_pos he]
        have hne : ¬ k1 = c' := fun hh => h (hh ▸ he)
        simp only [lookupA, if_neg hne]
        exact ih
      · rw [if_neg he]
        simp only [lookupA]
        by_cases he2 : k1 = c'
        · rw [if_pos he2, if_pos he2]
        · rw [if_neg he2, if_neg he2]
          exact ih

theorem markState_of_absent {c : Nat} (st : CState) {wss : List (Nat × CState)}
    (h : lookupA c wss = none) : markState c st wss = wss := by
  induction wss with
  | nil => rfl
  | cons e rest ih =>
      obtain ⟨k1, v1⟩ := e
      by_cases he : k1 = c
      · simp [lookupA, he] at h
      · simp only [lookupA, if_neg he] at h
        simp [markState, he, ih h]

theorem markState_append (c : Nat) (st : CState) (l1 l2 : List (Nat × CState)) :
    markState c st (l1 ++ l2) = markState c st l1 ++ markState c st l2 := by
  induction l1 with
  | nil => rfl
  | cons e rest ih =>
      obtain ⟨k1, v1⟩ := e
      simp [markState, ih]

theorem setA_of_absent {α β : Type} [DecidableEq α] {k : α} (v : β)
    {l : List (α × β)} (h : lookupA k l = none) : setA k v l = l ++ [(k, v)] := by
  induction l with
  | nil => rfl
  | cons e rest ih =>
      obtain ⟨k1, v1⟩ := e
      by_cases he : k1 = k
      · simp [lookupA, he] at h
      · simp only [lookupA, if_neg he] at h
        simp [setA, he, ih h]

theorem mem_map_fst_setA {α β : Type} [DecidableEq α] {x k : α} {v : β}
    {l : List (α × β)} : x ∈ (setA k v l).map Prod.fst ↔ x = k ∨ x ∈ l.map Prod.fst := by
  induction l with
  | nil => simp [setA]
  | cons e rest ih =>
      obtain ⟨k1, v1⟩ := e
      simp only [setA]
      by_cases he : k1 = k
      · rw [if_pos he]
        subst he
        simp only [List.map_cons, List.mem_cons]
        tauto
      · rw [if_neg he]
        simp only [List.map_cons, List.mem_cons, ih]
        tauto

theorem keysNodup_setA {α β : Type} [DecidableEq α] {k : α} (v : β)
    {l : List (α × β)} (h : (l.map Prod.fst).Nodup) :
    ((setA k v l).map Prod.fst).Nodup := by
  induction l with
  | nil => simp [setA]
  | cons e rest ih =>
      obtain ⟨k1, v1⟩ := e
      simp only [List.map_cons, List.nodup_cons] at h
      by_cases he : k1 = k
      · subst he
        simpa [setA] using h
      · simp only [setA, if_neg he, List.map_cons, List.nodup_cons]
        refine ⟨?_, ih h.2⟩
        rw [mem_map_fst_setA]
        rintro (rfl | hmem)
        · exact he rfl
        · exact h.1 hmem

theorem removeFirstConn_sublist (c : Nat) (l : List (String × Nat)) :
    (removeFirstConn c l).Sublist l := by
  induction l with
  | nil => simp [removeFirstConn]
  | cons e rest ih =>
      by_cases he : e.2 = c
      · simp [removeFirstConn, he]
      · simpa [removeFirstConn, he] using ih.cons₂ e

theorem removeFirstConn_of_absent {c : Nat} {l : List (String × Nat)}
    (h : ∀ e ∈ l, e.2 ≠ c) : removeFirstConn c l = l := by
  induction l with
  | nil => rfl
  | cons e rest ih =>
      have he : e.2 ≠ c := h e (by simp)
      simp only [removeFirstConn, if_neg he]
      rw [ih (fun x hx => h x (by simp [hx]))]

theorem removeFirstConn_append_first {c : Nat} {l1 l2 : List (String × Nat)}
    {id : String} (h : ∀ e ∈ l1, e.2 ≠ c) :
    removeFirstConn c (l1 ++ (id, c) :: l2) = l1 ++ l2 := by
  induction l1 with
  | nil => simp [removeFirstConn]
  | cons e rest ih =>
      have he : e.2 ≠ c := h e (by simp)
      simp only [List.cons_append, removeFirstConn, if_neg he, List.append_eq]
      rw [ih (fun x hx => h x (by simp [hx]))]

theorem mem_removeFirstConn {c : Nat} {l : List (String × Nat)} {e : String × Nat}
    (he : e ∈ removeFirstConn c l) : e ∈ l :=
  (removeFirstConn_sublist c l).mem he

theorem mem_removeFirstConn_ne {c : Nat} {l : List (String × Nat)} {e : String × Nat}
    (hnd : (l.map Prod.snd).Nodup) (he : e ∈ removeFirstConn c l) : e.2 ≠ c := by
  induction l with
  | nil => simp [removeFirstConn] at he
  | cons x rest ih =>
      simp only [List.map_cons, List.nodup_cons] at hnd
      by_cases hx : x.2 = c
      · simp only [removeFirstConn, if_pos hx] at he
        intro hec
        have hmem : e.2 ∈ rest.map Prod.snd := List.mem_map_of_mem Prod.snd he
        rw [hec, ← hx] at hmem
        exact hnd.1 hmem
      · simp only [removeFirstConn, if_neg hx] at he
        rcases List.mem_cons.mp he with rfl | hmem
        · exact hx
        · exact ih hnd.2 hmem

theorem broadcastSend_eq (event data : String) (l : List (Nat × CState)) :
    broadcastSend event data l
      = (l.filter (fun p => p.2 == CState.opened)).map
          (fun p => (p.1, WireMsg.eventEnvelope event data)) := by
  induction l with
  | nil => rfl
  | cons e rest ih =>
      obtain ⟨c, st⟩ := e
      by_cases h : st = CState.opened <;>
        simp [broadcastSend, h, ih, List.filter_cons]

theorem authGate_none_lookup {a : AuthInput} {reg : List (String × Nat)}
    (h : authGate a reg = none) : lookupA a.playerId reg = none := by
  simp only [authGate] at h
  split_ifs at h with h1 h2 h3 h4
  cases ho : lookupA a.playerId reg with
  | none => rfl
  | some v =>
      rw [ho] at h4
      simp at h4

/-! ### Claim C3: rejection effects -/

/-- C3: on a fresh socket, if the gate rejects then exactly one error
envelope `{event:'error', data:{error: code, message}}` is written to that
socket, the socket is closed (`ws.close()` → Closing), and the registry is
untouched; if the gate accepts, nothing is written and the registry gains
exactly the `Map.set` of the identity to the socket. -/
theorem spec_c3_reject_effects (a : AuthInput) (c : Nat) (s : SState)
    (hfresh : lookupA c s.wss = none) :
    (∀ code msg, authGate a s.registry = some (code, msg) →
      (connectStep a c s).sent = s.sent ++ [(c, WireMsg.errorEnvelope code msg)]
      ∧ stateOf (connectStep a c s).wss c = CState.closing
      ∧ (connectStep a c s).registry = s.registry)
    ∧ (authGate a s.registry = none →
      (connectStep a c s).sent = s.sent
      ∧ (connectStep a c s).registry = setA a.playerId c s.registry) := by
  constructor
  · intro code msg h
    have hsent : (connectStep a c s).sent = s.sent ++ [(c, WireMsg.errorEnvelope code msg)] := by
      simp [connectStep, h, rejectConnectionStep]
    have hreg : (connectStep a c s).registry = s.registry := by
      simp [connectStep, h, rejectConnectionStep]
    have hstate : stateOf (connectStep a c s).wss c = CState.closing := by
      simp only [connectStep, h, rejectConnectionStep]
      rw [stateOf, markState_append, markState_of_absent CState.closing hfresh,
        lookupA_append_of_none _ hfresh]
      rw [show markState c CState.closing [(c, CState.opened)] = [(c, CState.closing)] from by
        simp [markState]]
      simp [lookupA]
    exact ⟨hsent, hstate, hreg⟩
  · intro h
    have h1 : (connectStep a c s).sent = s.sent := by simp [connectStep, h]
    have h2 : (connectStep a c s).registry = setA a.playerId c s.registry := by
      simp [connectStep, h]
    exact ⟨h1, h2⟩

/-- Witness for C3: a rejected attempt (bad token) and an accepted attempt. -/
theorem spec_c3_reject_effects_witness :
    ((connectStep ⟨false, true, "p1"⟩ 0 initState).sent
        = [] ++ [(0, WireMsg.errorEnvelope ("ERR_MISSING_TOKEN") ("Missing authentication token"))]
      ∧ stateOf (connectStep ⟨false, true, "p1"⟩ 0 initState).wss 0 = CState.closing
      ∧ (connectStep ⟨false, true, "p1"⟩ 0 initState).registry = [])
    ∧ ((connectStep ⟨true, true, "p1"⟩ 0 initState).sent = []
      ∧ (connectStep ⟨true, true, "p1"⟩ 0 initState).registry = setA ("p1") 0 []) :=
  ⟨(spec_c3_reject_effects ⟨false, true, "p1"⟩ 0 initState (by decide)).1
      ("ERR_MISSING_TOKEN") ("Missing authentication token") (by decide),
    (spec_c3_reject_effects ⟨true, true, "p1"⟩ 0 initState (by decide)).2 (by decide)⟩

/-! ### Claim C10: close-event cleanup -/

/-- C10: the close cleanup scans registry entries in insertion order,
removes the first entry whose socket is the closing one and stops; entries
bound to other sockets, and any later entry bound to the same socket, are
kept; with no matching entry the registry is unchanged. -/
theorem spec_c10_close_cleanup (c : Nat) (s : SState) (hatt : c ∈ s.attached) :
    (∀ l1 id l2, s.registry = l1 ++ (id, c) :: l2 → (∀ e ∈ l1, e.2 ≠ c) →
      (closeStep c s).registry = l1 ++ l2)
    ∧ ((∀ e ∈ s.registry, e.2 ≠ c) → (closeStep c s).registry = s.registry) := by
  constructor
  · intro l1 id l2 hreg h1
    simp only [closeStep, if_pos hatt]
    rw [hreg, removeFirstConn_append_first h1]
  · intro hnone
    simp only [closeStep, if_pos hatt]
    exact removeFirstConn_of_absent hnone

/-- Witness for C10: two entries bound to socket 0; only the first goes. -/
theorem spec_c10_close_cleanup_witness :
    (closeStep 0 ⟨[], [("p1", 5), ("p2", 0), ("p3", 0)], [0], []⟩).registry
      = [("p1", 5)] ++ [("p3", 0)] :=
  (spec_c10_close_cleanup 0 ⟨[], [("p1", 5), ("p2", 0), ("p3", 0)], [0], []⟩
      (by decide)).1 [("p1", 5)] ("p2") [("p3", 0)] (by decide) (by decide)

/-! ### Claim C7: broadcast recipients (corrected) -/

/-- C7 counterexample: after two accepted connections and a
`setClientsWebsocket` that rebinds identity `p2` to socket 0, socket 1 is
Open and tracked by the server but bound to no registry entry; `broadcast`
(which iterates `this.wss.clients`, not the registry) still sends the
envelope to socket 1, refuting "sends to exactly the connections present in
the Session Registry". -/
theorem spec_c7_counterexample :
    ((run [Ev.connect ⟨true, true, "p1"⟩ 0, Ev.connect ⟨true, true, "p2"⟩ 1,
        Ev.setCW "p2" 0, Ev.broadcast "ann" "x"] initState).registry
      = [("p1", 0), ("p2", 0)])
    ∧ ((1, WireMsg.eventEnvelope "ann" "x")
        ∈ (run [Ev.connect ⟨true, true, "p1"⟩ 0, Ev.connect ⟨true, true, "p2"⟩ 1,
            Ev.setCW "p2" 0, Ev.broadcast "ann" "x"] initState).sent) := by
  constructor
  · decide
  · decide

/-- C7 amended: `broadcast(event, data)` writes the envelope exactly to the
sockets tracked by the underlying WebSocket server whose readyState is Open
(in tracking order) — a per-socket state check and an independent
`JSON.stringify` + `send` per recipient — and leaves the registry and socket
states untouched.  This recipient set can differ from the registry. -/
theorem spec_c7_broadcast_recipients (event data : String) (s : SState) :
    (broadcastStep event data s).sent
      = s.sent ++ (s.wss.filter (fun p => p.2 == CState.opened)).map
          (fun p => (p.1, WireMsg.eventEnvelope event data))
    ∧ (broadcastStep event data s).registry = s.registry
    ∧ (broadcastStep event data s).wss = s.wss := by
  refine ⟨?_, rfl, rfl⟩
  simp only [broadcastStep, broadcastSend_eq]

/-! ### Claim C2: registry invariant (corrected) -/

/-- C2 counterexample: the claim quantifies over sequences that include the
public mutator `setClientsWebsocket`.  Accept `p1` on socket 0, call
`setClientsWebsocket("p2", 0)`, then let socket 0 close: the cleanup removes
only the first matching entry, leaving `p2 ↦ socket 0` in the registry with
socket 0 Closed — a registry entry whose connection is not Open. -/
theorem spec_c2_counterexample :
    ((run [Ev.connect ⟨true, true, "p1"⟩ 0, Ev.setCW "p2" 0, Ev.closeEv 0]
        initState).registry = [("p2", 0)])
    ∧ ((run [Ev.connect ⟨true, true, "p1"⟩ 0, Ev.setCW "p2" 0, Ev.closeEv 0]
        initState).registry.all
          (fun e => stateOf (run [Ev.connect ⟨true, true, "p1"⟩ 0, Ev.setCW "p2" 0,
            Ev.closeEv 0] initState).wss e.2 == CState.opened) = false) := by
  constructor
  · decide
  · decide

/-! ### Registry invariant machinery (for C2) -/

theorem regInv_connect {a : AuthInput} {c : Nat} {s : SState}
    (hInv : RegInv s) (hfresh : lookupA c s.wss = none) :
    RegInv (connectStep a c s) := by
  obtain ⟨hk, hc, ho, ha, hw⟩ := hInv
  have hwss1 : ((s.wss ++ [(c, CState.opened)]).map Prod.fst).Nodup := by
    rw [List.map_append]
    simp only [List.map_cons, List.map_nil]
    rw [List.nodup_append]
    refine ⟨hw, List.nodup_singleton c, ?_⟩
    intro x hx hx2
    simp only [List.mem_singleton] at hx2
    subst hx2
    exact (lookupA_eq_none_iff.mp hfresh) hx
  cases hgate : authGate a s.registry with
  | some p =>
      obtain ⟨code, msg⟩ := p
      have heq : connectStep a c s =
          { s with wss := markState c CState.closing (s.wss ++ [(c, CState.opened)]),
                   sent := s.sent ++ [(c, WireMsg.errorEnvelope code msg)] } := by
        simp [connectStep, hgate, rejectConnectionStep]
      rw [heq]
      refine ⟨hk, hc, ?_, ha, ?_⟩
      · intro e he
        have hne : e.2 ≠ c := by
          intro hec
          have hsome := ho e he
          rw [hec, hfresh] at hsome
          cases hsome
        rw [lookupA_markState_ne _ _ hne]
        exact lookupA_append_of_some _ (ho e he)
      · rw [markState_map_fst]
        exact hwss1
  | none =>
      have hlook : lookupA a.playerId s.registry = none := authGate_none_lookup hgate
      have heq : connectStep a c s =
          { s with wss := s.wss ++ [(c, CState.opened)],
                   registry := s.registry ++ [(a.playerId, c)],
                   attached := s.attached ++ [c] } := by
        simp [connectStep, hgate, setA_of_absent _ hlook]
      rw [heq]
      refine ⟨?_, ?_, ?_, ?_, hwss1⟩
      · rw [List.map_append]
        simp only [List.map_cons, List.map_nil]
        rw [List.nodup_append]
        refine ⟨hk, List.nodup_singleton _, ?_⟩
        intro x hx hx2
        simp only [List.mem_singleton] at hx2
        subst hx2
        exact (lookupA_eq_none_iff.mp hlook) hx
      · rw [List.map_append]
        simp only [List.map_cons, List.map_nil]
        rw [List.nodup_append]
        refine ⟨hc, List.nodup_singleton _, ?_⟩
        intro x hx hx2
        simp only [List.mem_singleton] at hx2
        subst hx2
        obtain ⟨e, he, hec⟩ := List.mem_map.mp hx
        have hsome := ho e he
        rw [hec, hfresh] at hsome
        cases hsome
      · intro e he
        rcases List.mem_append.mp he with h1 | h2
        · exact lookupA_append_of_some _ (ho e h1)
        · simp only [List.mem_singleton] at h2
          subst h2
          rw [lookupA_append_of_none _ hfresh]
          simp [lookupA]
      · intro e he
        rcases List.mem_append.mp he with h1 | h2
        · exact List.mem_append.mpr (Or.inl (ha e h1))
        · simp only [List.mem_singleton] at h2
          subst h2
          simp

theorem regInv_close {c : Nat} {s : SState} (hInv : RegInv s) : RegInv (closeStep c s) := by
  obtain ⟨hk, hc, ho, ha, hw⟩ := hInv
  simp only [closeStep]
  by_cases hatt : c ∈ s.attached
  · rw [if_pos hatt]
    refine ⟨?_, ?_, ?_, ?_, ?_⟩
    · exact List.Nodup.sublist ((removeFirstConn_sublist c s.registry).map Prod.fst) hk
    · exact List.Nodup.sublist ((removeFirstConn_sublist c s.registry).map Prod.snd) hc
    · intro e he
      have hmem := mem_removeFirstConn he
      have hne := mem_removeFirstConn_ne hc he
      rw [lookupA_markState_ne _ _ hne]
      exact ho e hmem
    · intro e he
      exact ha e (mem_removeFirstConn he)
    · rw [markState_map_fst]
      exact hw
  · rw [if_neg hatt]
    refine ⟨hk, hc, ?_, ha, ?_⟩
    · intro e he
      have hne : e.2 ≠ c := fun hec => hatt (hec ▸ ha e he)
      rw [lookupA_markState_ne _ _ hne]
      exact ho e he
    · rw [markState_map_fst]
      exact hw

theorem regInv_broadcast {event data : String} {s : SState} (hInv : RegInv s) :
    RegInv (broadcastStep event data s) := hInv

theorem regInv_run {evs : List Ev} {s : SState} (hInv : RegInv s)
    (hno : noSetCW evs = true) (hfresh : freshRun evs s = true) :
    RegInv (run evs s) := by
  induction evs generalizing s with
  | nil => exact hInv
  | cons e rest ih =>
      have hrun : run (e :: rest) s = run rest (step e s) := by
        simp [run]
      rw [hrun]
      cases e with
      | connect a c =>
          simp only [freshRun, Bool.and_eq_true] at hfresh
          simp only [noSetCW, List.all_cons, Bool.and_eq_true] at hno
          exact ih (regInv_connect hInv (Option.isNone_iff_eq_none.mp hfresh.1)) hno.2 hfresh.2
      | closeEv c =>
          simp only [freshRun] at hfresh
          simp only [noSetCW, List.all_cons, Bool.and_eq_true] at hno
          exact ih (regInv_close hInv) hno.2 hfresh
      | setCW pid c =>
          simp [noSetCW] at hno
      | broadcast ev d =>
          simp only [freshRun] at hfresh
          simp only [noSetCW, List.all_cons, Bool.and_eq_true] at hno
          exact ih (regInv_broadcast hInv) hno.2 hfresh

theorem keysNodup_step (e : Ev) {s : SState} (h : (s.registry.map Prod.fst).Nodup) :
    ((step e s).registry.map Prod.fst).Nodup := by
  cases e with
  | connect a c =>
      cases hgate : authGate a s.registry with
      | some p =>
          have : (step (Ev.connect a c) s).registry = s.registry := by
            obtain ⟨code, msg⟩ := p
            simp [step, connectStep, hgate, rejectConnectionStep]
          rw [this]
          exact h
      | none =>
          have : (step (Ev.connect a c) s).registry = setA a.playerId c s.registry := by
            simp [step, connectStep, hgate]
          rw [this]
          exact keysNodup_setA _ h
  | closeEv c =>
      by_cases hatt : c ∈ s.attached
      · have : (step (Ev.closeEv c) s).registry = removeFirstConn c s.registry := by
          simp [step, closeStep, hatt]
        rw [this]
        exact List.Nodup.sublist ((removeFirstConn_sublist c s.registry).map Prod.fst) h
      · have : (step (Ev.closeEv c) s).registry = s.registry := by
          simp [step, closeStep, hatt]
        rw [this]
        exact h
  | setCW pid c => exact keysNodup_setA _ h
  | broadcast ev d => exact h

theorem keysNodup_run (evs : List Ev) {s : SState}
    (h : (s.registry.map Prod.fst).Nodup) :
    ((run evs s).registry.map Prod.fst).Nodup := by
  induction evs generalizing s with
  | nil => exact h
  | cons e rest ih =>
      have hrun : run (e :: rest) s = run rest (step e s) := by simp [run]
      rw [hrun]
      exact ih (keysNodup_step e h)

/-! ### Claim C2: amended invariant -/

/-- C2 amended: after ANY event sequence the registry maps each identity to
at most one entry (JS `Map` keys stay pairwise distinct under every public
mutator, `setClientsWebsocket` included); and for sequences of connection
attempts, rejections and close events WITHOUT `setClientsWebsocket` (which
can insert sockets in any state and alias one socket under two identities),
every connection stored in the registry is in the Open state. -/
theorem spec_c2_registry_invariant (evs : List Ev)
    (hno : noSetCW evs = true) (hfresh : freshRun evs initState = true) :
    (∀ evs' : List Ev, ((run evs' initState).registry.map Prod.fst).Nodup)
    ∧ (∀ e ∈ (run evs initState).registry,
        stateOf (run evs initState).wss e.2 = CState.opened) := by
  constructor
  · intro evs'
    exact keysNodup_run evs' (by simp [initState])
  · have hInv0 : RegInv initState := by
      refine ⟨?_, ?_, ?_, ?_, ?_⟩ <;> simp [initState]
    have h := regInv_run hInv0 hno hfresh
    obtain ⟨h1, h2, h3, h4, h5⟩ := h
    intro e he
    rw [stateOf, h3 e he]
    rfl

/-- Witness for C2 amended: two accepted connections, then the second
closes; the surviving entry is Open and identities are distinct. -/
theorem spec_c2_registry_invariant_witness :
    (((run [Ev.connect ⟨true, true, "p1"⟩ 0, Ev.connect ⟨true, true, "p2"⟩ 1,
        Ev.closeEv 1] initState).registry.map Prod.fst).Nodup)
    ∧ stateOf (run [Ev.connect ⟨true, true, "p1"⟩ 0, Ev.connect ⟨true, true, "p2"⟩ 1,
        Ev.closeEv 1] initState).wss ("p1", 0).2 = CState.opened :=
  ⟨(spec_c2_registry_invariant [Ev.connect ⟨true, true, "p1"⟩ 0,
      Ev.connect ⟨true, true, "p2"⟩ 1, Ev.closeEv 1] (by decide) (by decide)).1
      [Ev.connect ⟨true, true, "p1"⟩ 0, Ev.connect ⟨true, true, "p2"⟩ 1, Ev.closeEv 1],
    (spec_c2_registry_invariant [Ev.connect ⟨true, true, "p1"⟩ 0,
      Ev.connect ⟨true, true, "p2"⟩ 1, Ev.closeEv 1] (by decide) (by decide)).2
      ("p1", 0) (by decide)⟩

/-! ### Claim C8: router failure isolation -/

theorem handleMessage_frame (handlers : List (String × (String → HandlerBehavior)))
    (m : RawMsg) (c : Nat) (s : SState) :
    (handleMessage handlers m c s).1.wss = s.wss
    ∧ (handleMessage handlers m c s).1.registry = s.registry
    ∧ (handleMessage handlers m c s).1.attached = s.attached := by
  cases m with
  | malformed => exact ⟨rfl, rfl, rfl⟩
  | envelope ev data =>
      cases hl : lookupA ev handlers with
      | none => simp [handleMessage, handleEvent, hl]
      | some h =>
          cases hr : runHandler (h data) with
          | ok r => simp [handleMessage, handleEvent, hl, hr]
          | error e => simp [handleMessage, handleEvent, hl, hr]

theorem handleMessage_snd_indep (handlers : List (String × (String → HandlerBehavior)))
    (m : RawMsg) (c : Nat) (s s' : SState) :
    (handleMessage handlers m c s).2 = (handleMessage handlers m c s').2 := by
  cases m with
  | malformed => rfl
  | envelope ev data =>
      cases hl : lookupA ev handlers with
      | none => simp [handleMessage, handleEvent, hl]
      | some h =>
          cases hr : runHandler (h data) with
          | ok r => simp [handleMessage, handleEvent, hl, hr]
          | error e => simp [handleMessage, handleEvent, hl, hr]

theorem runMessages_results (handlers : List (String × (String → HandlerBehavior)))
    (c : Nat) (ms : List RawMsg) (s s' : SState) :
    (runMessages handlers c ms s).2 = (runMessages handlers c ms s').2
    ∧ (runMessages handlers c ms s).2.length = ms.length := by
  induction ms generalizing s s' with
  | nil => exact ⟨rfl, rfl⟩
  | cons m rest ih =>
      simp only [runMessages, List.length_cons]
      constructor
      · rw [handleMessage_snd_indep handlers m c s s']
        rw [(ih (handleMessage handlers m c s).1 (handleMessage handlers m c s').1).1]
      · rw [(ih (handleMessage handlers m c s).1 (handleMessage handlers m c s).1).2]

/-- C8: inbound message handling never closes the connection and never
escapes the router: the server state's socket set, socket states, registry
and handler attachments are untouched by any dispatch; a malformed message
is dropped as `parseError` with no other effect; an unknown event is dropped
as `noHandler` with no other effect; a throwing handler is caught and
recorded as `handlerError` with no other effect; and over any message
sequence every message is dispatched, with results independent of the state
left by earlier messages (so earlier failures cannot suppress later
dispatches). -/
theorem spec_c8_dispatch_isolation
    (handlers : List (String × (String → HandlerBehavior))) (c : Nat) :
    (∀ m s, (handleMessage handlers m c s).1.wss = s.wss
      ∧ (handleMessage handlers m c s).1.registry = s.registry
      ∧ (handleMessage handlers m c s).1.attached = s.attached)
    ∧ (∀ s, handleMessage handlers RawMsg.malformed c s = (s, DispatchResult.parseError))
    ∧ (∀ ev data s, lookupA ev handlers = none →
        handleMessage handlers (RawMsg.envelope ev data) c s
          = (s, DispatchResult.noHandler ev))
    ∧ (∀ ev data h err s, lookupA ev handlers = some h →
        h data = HandlerBehavior.throws err →
        handleMessage handlers (RawMsg.envelope ev data) c s
          = (s, DispatchResult.handlerError ev err))
    ∧ (∀ ms s s', (runMessages handlers c ms s).2 = (runMessages handlers c ms s').2
        ∧ (runMessages handlers c ms s).2.length = ms.length) := by
  refine ⟨fun m s => handleMessage_frame handlers m c s, fun s => rfl, ?_, ?_, ?_⟩
  · intro ev data s hnone
    simp [handleMessage, handleEvent, hnone]
  · intro ev data h err s hsome hthrows
    simp [handleMessage, handleEvent, hsome, hthrows, runHandler]
  · exact runMessages_results handlers c

/-- Witness for C8 with a concrete handler table: a completing handler, a
throwing handler, an unknown event and a malformed message. -/
theorem spec_c8_dispatch_isolation_witness :
    handleMessage [("greet", fun d => HandlerBehavior.ok [WireMsg.eventEnvelope "greet" d]),
        ("boom", fun _ => HandlerBehavior.throws "bug")] RawMsg.malformed 7 initState
      = (initState, DispatchResult.parseError)
    ∧ handleMessage [("greet", fun d => HandlerBehavior.ok [WireMsg.eventEnvelope "greet" d]),
        ("boom", fun _ => HandlerBehavior.throws "bug")] (RawMsg.envelope "nope" "d") 7 initState
      = (initState, DispatchResult.noHandler "nope")
    ∧ handleMessage [("greet", fun d => HandlerBehavior.ok [WireMsg.eventEnvelope "greet" d]),
        ("boom", fun _ => HandlerBehavior.throws "bug")] (RawMsg.envelope "boom" "d") 7 initState
      = (initState, DispatchResult.handlerError "boom" "bug") :=
  ⟨(spec_c8_dispatch_isolation [("greet", fun d => HandlerBehavior.ok [WireMsg.eventEnvelope "greet" d]),
        ("boom", fun _ => HandlerBehavior.throws "bug")] 7).2.1 initState,
    (spec_c8_dispatch_isolation [("greet", fun d => HandlerBehavior.ok [WireMsg.eventEnvelope "greet" d]),
        ("boom", fun _ => HandlerBehavior.throws "bug")] 7).2.2.1 ("nope") ("d") initState rfl,
    (spec_c8_dispatch_isolation [("greet", fun d => HandlerBehavior.ok [WireMsg.eventEnvelope "greet" d]),
        ("boom", fun _ => HandlerBehavior.throws "bug")] 7).2.2.2.1 ("boom") ("d")
      (fun _ => HandlerBehavior.throws "bug") ("bug") initState rfl rfl⟩

/-! ### Claim C9: per-connection dispatch sequencing (corrected) -/

/-- C9 counterexample: starting with messages 1 and 2 queued on one
connection, two consecutive `deliver` steps are a valid trace of the code
(`handleMessage` invokes the async `handleEvent` without awaiting it,
server.ts:235), reaching a state with `invoked = [1, 2]` and
`completed = []`: message 2's handler is invoked while message 1's handler
has neither completed nor failed, refuting the claim. -/
theorem spec_c9_counterexample :
    runTrace [RStep.deliver, RStep.deliver] ⟨[1, 2], [], [], []⟩
      = some ⟨[], [1, 2], [1, 2], []⟩ := by
  decide

theorem rstep_invoked_pending {e : RStep} {s s' : RouterState}
    (h : rstep e s = some s') : s'.invoked ++ s'.pending = s.invoked ++ s.pending := by
  cases e with
  | deliver =>
      simp only [rstep] at h
      cases hp : s.pending with
      | nil => rw [hp] at h; cases h
      | cons m rest =>
          rw [hp] at h
          cases h
          simp [hp]
  | complete m =>
      simp only [rstep] at h
      by_cases hm : m ∈ s.inflight
      · rw [if_pos hm] at h
        cases h
        rfl
      · rw [if_neg hm] at h
        cases h

theorem runTrace_invoked_pending {t : List RStep} {s0 s : RouterState}
    (h : runTrace t s0 = some s) :
    s.invoked ++ s.pending = s0.invoked ++ s0.pending := by
  induction t generalizing s0 with
  | nil =>
      simp only [runTrace] at h
      cases h
      rfl
  | cons e rest ih =>
      simp only [runTrace] at h
      cases he : rstep e s0 with
      | none => rw [he] at h; cases h
      | some s1 =>
          rw [he] at h
          rw [ih h, rstep_invoked_pending he]

/-- C9 amended: per connection, handler invocations start in message order —
after any valid trace the invoked list followed by the still-pending list is
exactly the original message order, so no later message's handler starts
before an earlier message's handler has started — but the router does not
wait for an async handler to complete or fail before invoking the next
handler, so a later handler can run while an earlier one is still in
flight. -/
theorem spec_c9_order_preserved (t : List RStep) (ms : List Nat) (s : RouterState)
    (h : runTrace t ⟨ms, [], [], []⟩ = some s) :
    s.invoked ++ s.pending = ms := by
  have := runTrace_invoked_pending h
  simpa using this

/-- Witness for C9 amended at a concrete one-step trace. -/
theorem spec_c9_order_preserved_witness :
    RouterState.invoked ⟨[6], [5], [5], []⟩ ++ RouterState.pending ⟨[6], [5], [5], []⟩
      = [5, 6] :=
  spec_c9_order_preserved [RStep.deliver] [5, 6] ⟨[6], [5], [5], []⟩ (by decide)

end Onlive
